import Mathlib

/-!
Verification of the FAIR EVA web client (`fair_eva_web_client/app.py`).

The development embeds the score-aggregation function `compute_scores`
(app.py lines 73-148) and the evaluation request handler `evaluator`
(app.py lines 240-292) over a JSON-like value type.  Python semantics are
made explicit: dictionaries are association lists in insertion order,
truthiness follows Python, fallible operations (`float(...)` on a
non-numeric value, `.get` on a non-dict, attribute access on a non-dict)
return `Except`.  Python floats are modelled as exact rationals; every
numeric example in the properties below is exactly representable, and
`round(x, 2)` is modelled as rounding `100 * x` to the nearest integer
(Python's tie-to-even behaviour differs only at exact half-way ties,
which do not occur in any statement here).
-/

/-- JSON-like values, the shape of data flowing through the client. -/
inductive JVal where
  | null
  | jbool (b : Bool)
  | num (q : ℚ)
  | str (s : String)
  | arr (xs : List JVal)
  | obj (kvs : List (String × JVal))

/-- Python exception kinds that the embedded code can raise. -/
inductive PyErr where
  | typeError
  | valueError
  | attributeError
  | httpError
  | ioError
  | jsonError
deriving DecidableEq

/-- Python truthiness of a JSON value (`bool(v)`). -/
def truthy : JVal → Bool
  | .null => false
  | .jbool b => b
  | .num q => decide (q ≠ 0)
  | .str s => decide (s ≠ "")
  | .arr xs => !xs.isEmpty
  | .obj kvs => !kvs.isEmpty

/-- Python `a or b`. -/
def pyOr (a b : JVal) : JVal :=
  if truthy a then a else b

/-- Python `d.get(k, default)` on an insertion-ordered dict. -/
def dictGetD : List (String × JVal) → String → JVal → JVal
  | [], _, d => d
  | (k1, v) :: rest, k, d => if k1 = k then v else dictGetD rest k d

/-- Python `d[k] = v` on an insertion-ordered dict: replace the value in
place when the key is present, append otherwise. -/
def dictInsert : List (String × JVal) → String → JVal → List (String × JVal)
  | [], k, v => [(k, v)]
  | (k1, v1) :: rest, k, v =>
      if k1 = k then (k, v) :: rest else (k1, v1) :: dictInsert rest k v

/-- Plain lookup (`d[k]` when present). -/
def jlookup : List (String × JVal) → String → Option JVal
  | [], _ => none
  | (k1, v) :: rest, k => if k1 = k then some v else jlookup rest k

/-- Decimal value of a digit list. -/
def digitsVal (cs : List Char) : ℕ :=
  cs.foldl (fun a c => 10 * a + (c.toNat - 48)) 0

/-- Value of a fractional digit list. -/
def fracVal (cs : List Char) : ℚ :=
  (digitsVal cs : ℚ) / (10 : ℚ) ^ cs.length

/-- Unsigned decimal literal (digits, optionally with a decimal point). -/
def parseUnsignedFloat (cs : List Char) : Option ℚ :=
  let ip := cs.takeWhile Char.isDigit
  let rest := cs.dropWhile Char.isDigit
  match rest with
  | [] => if ip.isEmpty then none else some (digitsVal ip : ℚ)
  | c :: frac =>
      if c = '.' ∧ frac.all Char.isDigit ∧ (ip ≠ [] ∨ frac ≠ []) then
        some ((digitsVal ip : ℚ) + fracVal frac)
      else none

/-- Python `float(s)` for a string: optional sign around an unsigned
decimal literal, after stripping surrounding whitespace.  (Python
additionally accepts exponent, infinity and nan spellings; none of the
properties below depend on those.) -/
def pyFloatOfString (s : String) : Option ℚ :=
  match s.trim.toList with
  | '+' :: rest => parseUnsignedFloat rest
  | '-' :: rest => (parseUnsignedFloat rest).map Neg.neg
  | cs => parseUnsignedFloat cs

/-- Python `float(v)`: numbers and booleans convert, parseable strings
convert, everything else raises (`TypeError` for non-str non-number,
`ValueError` for an unparseable string). -/
def pyFloat : JVal → Except PyErr ℚ
  | .num q => .ok q
  | .jbool b => .ok (if b then 1 else 0)
  | .str s =>
      match pyFloatOfString s with
      | some q => .ok q
      | none => .error .valueError
  | _ => .error .typeError

/-- Python `round(q * 100) / 100`, i.e. `round(q, 2)` over exact
rationals. -/
def round2 (q : ℚ) : ℚ :=
  ((round (100 * q) : ℤ) : ℚ) / 100

/-- CSS colour constants used by `colour_for` (app.py lines 97-101). -/
def greenHex : String := "#2ECC71"

/-- Yellow band colour. -/
def yellowHex : String := "#F4D03F"

/-- Red band colour. -/
def redHex : String := "#E74C3C"

/-- `colour_for` (app.py lines 95-101): colour banding of a score. -/
def colour_for (value : ℚ) : String :=
  if value ≥ 75 then greenHex
  else if value ≥ 50 then yellowHex
  else redHex

/-- `float(test.get("points", 0.0) or 0.0)` (app.py line 115). -/
def itemPoints (test : List (String × JVal)) : Except PyErr ℚ :=
  pyFloat (pyOr (dictGetD test "points" (.num 0)) (.num 0))

/-- `float(test.get("score", {}).get("weight", 0.0) or 0.0)` (app.py
line 116); `.get` on a non-dict `score` raises `AttributeError`. -/
def itemWeight (test : List (String × JVal)) : Except PyErr ℚ :=
  match dictGetD test "score" (.obj []) with
  | .obj s => pyFloat (pyOr (dictGetD s "weight" (.num 0)) (.num 0))
  | _ => .error .attributeError

/-- `m.get("message", "")` for one element of a msg list (app.py line
123); raises `AttributeError` when the element is not a dict. -/
def messageField : JVal → Except PyErr JVal
  | .obj m => .ok (dictGetD m "message" (.str ""))
  | _ => .error .attributeError

/-- The list comprehension `[m.get("message", "") for m in messages]`
(app.py line 123). -/
def formatList : List JVal → Except PyErr (List JVal)
  | [] => .ok []
  | m :: rest =>
      match messageField m with
      | .error e => .error e
      | .ok v =>
          match formatList rest with
          | .error e => .error e
          | .ok vs => .ok (v :: vs)

/-- Message normalisation (app.py lines 120-125): a list is mapped to its
elements' `message` fields; a non-list becomes `messages or []`. -/
def formatMsg (messages : JVal) : Except PyErr JVal :=
  match messages with
  | .arr ms =>
      match formatList ms with
      | .error e => .error e
      | .ok vs => .ok (.arr vs)
  | _ => .ok (pyOr messages (.arr []))

/-- The processed indicator entry built at app.py lines 126-136. -/
def processedEntry (key : String) (test : List (String × JVal))
    (points weight : ℚ) (colour fmsg : JVal) : JVal :=
  .obj
    [ ("name", pyOr (dictGetD test "name" .null) (.str key)),
      ("name_smart",
        pyOr (dictGetD test "name_smart" .null)
          (pyOr (dictGetD test "name" .null) (.str key))),
      ("points", .num points),
      ("score", .obj [("weight", .num weight)]),
      ("color", colour),
      ("test_status", dictGetD test "test_status" (.str "")),
      ("msg", fmsg) ]

/-- Processing of one indicator dict (app.py lines 115-136): points,
weight, colour, normalised messages, and the processed entry. -/
def processOne (key : String) (test : List (String × JVal)) :
    Except PyErr (JVal × ℚ × ℚ) :=
  match itemPoints test with
  | .error e => .error e
  | .ok points =>
      match itemWeight test with
      | .error e => .error e
      | .ok weight =>
          let colour := pyOr (dictGetD test "color" .null) (.str (colour_for points))
          match formatMsg (dictGetD test "msg" .null) with
          | .error e => .error e
          | .ok fmsg =>
              .ok (processedEntry key test points weight colour fmsg, points, weight)

/-- The indicator loop of one principle (app.py lines 112-138),
accumulating the processed dict, `points_sum` and `weight_sum`;
non-dict entries are skipped. -/
def processItems (processed : List (String × JVal)) (points_sum weight_sum : ℚ) :
    List (String × JVal) → Except PyErr (List (String × JVal) × ℚ × ℚ)
  | [] => .ok (processed, points_sum, weight_sum)
  | (key, test) :: rest =>
      match test with
      | .obj tkvs =>
          match processOne key tkvs with
          | .error e => .error e
          | .ok (entry, points, weight) =>
              processItems (dictInsert processed key entry)
                (points_sum + points * weight) (weight_sum + weight) rest
      | _ => processItems processed points_sum weight_sum rest

/-- `data.get(dim, {}) or {}` followed by `.items()` (app.py lines
107, 112); `.items()` on a non-dict raises `AttributeError`. -/
def principleItems (dkvs : List (String × JVal)) (dim : String) :
    Except PyErr (List (String × JVal)) :=
  match pyOr (dictGetD dkvs dim (.obj [])) (.obj []) with
  | .obj items => .ok items
  | _ => .error .attributeError

/-- Runtime configuration (app.py lines 33-66), restricted to the fields
the evaluation handler reads. -/
structure Settings where
  api_url : String
  api_port : ℕ
  dev_mode : Bool
  sample_file : String

/-- The HTTP response the remote FAIR EVA API would return, as seen by
the handler: a status code and the result of `resp.json()`. -/
structure HttpResp where
  status : ℕ
  jsonBody : Except PyErr JVal

/-- The handler's external world: the parsed content of the configured
sample file (`open` + `json.load`, errors included) and the API
response. -/
structure WebEnv where
  fileJson : Except PyErr JVal
  resp : HttpResp

/-- One outbound HTTP POST: target URL and JSON payload. -/
structure HttpReq where
  url : String
  payload : JVal

/-- The pages the evaluation route can render. -/
inductive Page where
  | redirectIndex
  | errorPage (msg : String)
  | evalPage (principles : List (String × JVal)) (fair_points : ℚ) (fair_color : String)
  | crash (e : PyErr)

/-- The error page text prefix for a load failure (app.py line 280). -/
def errLoad : String := "Error loading evaluation data"

/-- The error page text for an empty result (app.py line 283). -/
def errNoData : String := "No evaluation data returned."

/-- The key-selection loop of the loaders (app.py lines 263-266 and
275-278): first top-level value whose key is not `evaluator_logs`. -/
def firstNonLogKey : List (String × JVal) → Option JVal
  | [] => none
  | (k, v) :: rest => if k ≠ "evaluator_logs" then some v else firstNonLogKey rest

/-- Key selection applied to a parsed JSON document; `.items()` on a
non-dict raises `AttributeError`. -/
def selectResultData (j : JVal) : Except PyErr (Option JVal) :=
  match j with
  | .obj kvs => .ok (firstNonLogKey kvs)
  | _ => .error .attributeError

/-- The development-mode loader (app.py lines 259-266): read and parse
the sample file, then select the first non-log key. -/
def devLoad (env : WebEnv) : Except PyErr (Option JVal) :=
  match env.fileJson with
  | .error e => .error e
  | .ok j => selectResultData j

/-- Python `s.rstrip("/")`. -/
def rstripSlash (s : String) : String :=
  ⟨(s.data.reverse.dropWhile (fun c => c = '/')).reverse⟩

/-- The production endpoint (app.py lines 268-270):
`{api_url rstripped of "/"}:{api_port}/v1.0/rda/rda_all`. -/
def endpointOf (cfg : Settings) : String :=
  rstripSlash cfg.api_url ++ ":" ++ toString cfg.api_port ++ "/v1.0/rda/rda_all"

/-- The POST payload (app.py line 271): `{"id": item_id, "lang": "en"}`. -/
def payloadOf (item_id : String) : JVal :=
  .obj [("id", .str item_id), ("lang", .str "en")]

/-- `resp.raise_for_status()` raises exactly for 4xx and 5xx codes. -/
def statusRaises (status : ℕ) : Bool :=
  decide (400 ≤ status ∧ status < 600)

/-- The production-mode loader (app.py lines 267-278): one POST to the
endpoint, `raise_for_status`, `resp.json()`, then the same key
selection.  Returns the outcome together with the list of HTTP
requests issued. -/
def prodLoad (cfg : Settings) (env : WebEnv) (item_id : String) :
    Except PyErr (Option JVal) × List HttpReq :=
  let outcome : Except PyErr (Option JVal) :=
    if statusRaises env.resp.status then .error .httpError
    else
      match env.resp.jsonBody with
      | .error e => .error e
      | .ok j => selectResultData j
  (outcome, [⟨endpointOf cfg, payloadOf item_id⟩])

/-- The fixed principle list iterated at app.py line 106. -/
def fairDims : List String := ["findable", "accessible", "interoperable", "reusable"]

/-- The outer loop over the four FAIR principles (app.py lines 106-145):
per principle, process the indicators, attach the aggregated `result`
entry, and accumulate the global sums. -/
def dimsLoop (dkvs : List (String × JVal)) (principles : List (String × JVal))
    (total_points total_weight : ℚ) :
    List String → Except PyErr (List (String × JVal) × ℚ × ℚ)
  | [] => .ok (principles, total_points, total_weight)
  | dim :: dims =>
      match principleItems dkvs dim with
      | .error e => .error e
      | .ok items =>
          match processItems [] 0 0 items with
          | .error e => .error e
          | .ok (processed, points_sum, weight_sum) =>
              let result_points :=
                if weight_sum > 0 then round2 (points_sum / weight_sum) else 0
              let result_color := colour_for result_points
              let processed2 := dictInsert processed "result"
                (.obj [("points", .num result_points), ("color", .str result_color)])
              dimsLoop dkvs (dictInsert principles dim (.obj processed2))
                (total_points + points_sum) (total_weight + weight_sum) dims

/-- The value returned by `compute_scores`. -/
structure ScoreResult where
  principles : List (String × JVal)
  fair_points : ℚ
  fair_color : String

/-- `compute_scores` (app.py lines 73-148); `data.get` on a non-dict
raises `AttributeError`. -/
def compute_scores (data : JVal) : Except PyErr ScoreResult :=
  match data with
  | .obj dkvs =>
      match dimsLoop dkvs [] 0 0 fairDims with
      | .error e => .error e
      | .ok (principles, total_points, total_weight) =>
          let fair_points :=
            if total_weight > 0 then round2 (total_points / total_weight) else 0
          .ok ⟨principles, fair_points, colour_for fair_points⟩
  | _ => .error .attributeError

/-- The evaluation route handler (app.py lines 240-292), up to the
rendering of `eval.html` (whose inputs are the compute_scores outputs;
the later view-model reshaping, lines 297-440, is presentation only and
raises nothing on compute_scores output).  Line 257 of the source
unconditionally overrides the configured flag with
`cfg.dev_mode = True` before choosing the loader branch; the override
is embedded faithfully.  Returns the page together with the HTTP
requests issued. -/
def evaluator (cfg : Settings) (env : WebEnv) (item_id : String) :
    Page × List HttpReq :=
  if item_id = "" then (.redirectIndex, [])
  else
    let cfg2 : Settings := { cfg with dev_mode := true }
    let loadStep : Except PyErr (Option JVal) × List HttpReq :=
      if cfg2.dev_mode then (devLoad env, [])
      else prodLoad cfg2 env item_id
    match loadStep.1 with
    | .error _ => (.errorPage errLoad, loadStep.2)
    | .ok none => (.errorPage errNoData, loadStep.2)
    | .ok (some d) =>
        if truthy d then
          match compute_scores d with
          | .error e => (.crash e, loadStep.2)
          | .ok r => (.evalPage r.principles r.fair_points r.fair_color, loadStep.2)
        else (.errorPage errNoData, loadStep.2)

/-! Analysis-side descriptions of the aggregation: per-indicator
contributions, per-principle sums and the global weighted average,
written as direct sums over the document (following the wording of the
specification), to be proved equal to what `compute_scores` computes. -/

/-- The weighted contribution `points * weight` of one indicator entry
(0 for skipped or failing entries; only used where processing
succeeds). -/
def contribPW (kv : String × JVal) : ℚ :=
  match kv.2 with
  | .obj t =>
      match processOne kv.1 t with
      | .ok (_, p, w) => p * w
      | .error _ => 0
  | _ => 0

/-- The weight contribution of one indicator entry. -/
def contribW (kv : String × JVal) : ℚ :=
  match kv.2 with
  | .obj t =>
      match processOne kv.1 t with
      | .ok (_, _, w) => w
      | .error _ => 0
  | _ => 0

/-- The processed entry one indicator contributes, when any. -/
def procEntryOf (kv : String × JVal) : Option (String × JVal) :=
  match kv.2 with
  | .obj t =>
      match processOne kv.1 t with
      | .ok (e, _, _) => some (kv.1, e)
      | .error _ => none
  | _ => none

/-- Whether processing one indicator entry succeeds (non-dict entries
are skipped, hence succeed). -/
def itemOk (kv : String × JVal) : Bool :=
  match kv.2 with
  | .obj t =>
      match processOne kv.1 t with
      | .ok _ => true
      | .error _ => false
  | _ => true

/-- The processed dict accumulated over a list of indicator entries. -/
def foldProc (proc : List (String × JVal)) : List (String × JVal) → List (String × JVal)
  | [] => proc
  | kv :: rest =>
      match procEntryOf kv with
      | some (k, e) => foldProc (dictInsert proc k e) rest
      | none => foldProc proc rest

/-- The effective indicator list of one principle:
`data.get(dim, {}) or {}` when that is a dict. -/
def itemsVal (dkvs : List (String × JVal)) (dim : String) :
    Option (List (String × JVal)) :=
  match pyOr (dictGetD dkvs dim (.obj [])) (.obj []) with
  | .obj items => some items
  | _ => none

/-- The effective indicator list, defaulting to empty. -/
def dimItems (dkvs : List (String × JVal)) (dim : String) : List (String × JVal) :=
  (itemsVal dkvs dim).getD []

/-- Whether one principle of the document processes without raising. -/
def dimOkB (dkvs : List (String × JVal)) (dim : String) : Bool :=
  (itemsVal dkvs dim).isSome && (dimItems dkvs dim).all itemOk

/-- The weighted points sum of one principle. -/
def dimPS (dkvs : List (String × JVal)) (dim : String) : ℚ :=
  ((dimItems dkvs dim).map contribPW).sum

/-- The weight sum of one principle. -/
def dimWS (dkvs : List (String × JVal)) (dim : String) : ℚ :=
  ((dimItems dkvs dim).map contribW).sum

/-- The aggregated score of one principle: weighted average rounded to
two decimals, 0 when the weight sum is not positive. -/
def dimResult (dkvs : List (String × JVal)) (dim : String) : ℚ :=
  if dimWS dkvs dim > 0 then round2 (dimPS dkvs dim / dimWS dkvs dim) else 0

/-- The processed dict of one principle including its `result` entry. -/
def dimProcessed (dkvs : List (String × JVal)) (dim : String) :
    List (String × JVal) :=
  dictInsert (foldProc [] (dimItems dkvs dim)) "result"
    (.obj [ ("points", .num (dimResult dkvs dim)),
            ("color", .str (colour_for (dimResult dkvs dim))) ])

/-- The full principles mapping `compute_scores` returns. -/
def specPrinciples (dkvs : List (String × JVal)) : List (String × JVal) :=
  fairDims.map (fun dim => (dim, .obj (dimProcessed dkvs dim)))

/-- The global weighted points sum (all principles). -/
def totalPS (dkvs : List (String × JVal)) : ℚ :=
  (fairDims.map (dimPS dkvs)).sum

/-- The global weight sum (all principles). -/
def totalWS (dkvs : List (String × JVal)) : ℚ :=
  (fairDims.map (dimWS dkvs)).sum

/-- The overall FAIR score: global weighted average rounded to two
decimals, 0 when the global weight sum is not positive. -/
def specFair (dkvs : List (String × JVal)) : ℚ :=
  if totalWS dkvs > 0 then round2 (totalPS dkvs / totalWS dkvs) else 0

/-- All indicator entries of all four principles, concatenated — the
index set of the specification's global weighted average. -/
def allItems (dkvs : List (String × JVal)) : List (String × JVal) :=
  (fairDims.map (dimItems dkvs)).flatten

/-- The specification's global weighted sum: over all indicators of all
four principles. -/
def globalPW (dkvs : List (String × JVal)) : ℚ :=
  ((allItems dkvs).map contribPW).sum

/-- The specification's global weight sum. -/
def globalW (dkvs : List (String × JVal)) : ℚ :=
  ((allItems dkvs).map contribW).sum

/-- The aggregated `result.points` of a principle in a `ScoreResult`. -/
def resultPointsOf (r : ScoreResult) (dim : String) : Option ℚ :=
  match jlookup r.principles dim with
  | some (.obj p) =>
      match jlookup p "result" with
      | some (.obj res) =>
          match jlookup res "points" with
          | some (.num q) => some q
          | _ => none
      | _ => none
  | _ => none

/-- The aggregated `result.color` of a principle in a `ScoreResult`. -/
def resultColorOf (r : ScoreResult) (dim : String) : Option JVal :=
  match jlookup r.principles dim with
  | some (.obj p) =>
      match jlookup p "result" with
      | some (.obj res) => jlookup res "color"
      | _ => none
  | _ => none

/-- A field of a processed indicator entry in a `ScoreResult`. -/
def indicatorField (r : ScoreResult) (dim key fld : String) : Option JVal :=
  match jlookup r.principles dim with
  | some (.obj p) =>
      match jlookup p key with
      | some (.obj e) => jlookup e fld
      | _ => none
  | _ => none

/-- A document that is a mapping of mappings: every top-level value is
an object. -/
def mappingOfMappings (data : JVal) : Bool :=
  match data with
  | .obj kvs =>
      kvs.all (fun kv =>
        match kv.2 with
        | .obj _ => true
        | _ => false)
  | _ => false

/-- A value whose `float(value or 0.0)` conversion cannot raise: absent
placeholders (`None`), booleans, numbers, or falsy values of any type.
(Numeric strings also convert; they are not needed below.) -/
def tameNum (v : JVal) : Bool :=
  match v with
  | .null => true
  | .jbool _ => true
  | .num _ => true
  | .str s => decide (s = "")
  | .arr xs => xs.isEmpty
  | .obj kvs => kvs.isEmpty

/-- An indicator object that processes without raising: tame `points`,
a `score` that is absent or an object with tame `weight`, and a `msg`
that is either not a list or a list of objects. -/
def tameIndicator (t : List (String × JVal)) : Bool :=
  tameNum (dictGetD t "points" (.num 0)) &&
  (match dictGetD t "score" (.obj []) with
   | .obj s => tameNum (dictGetD s "weight" (.num 0))
   | _ => false) &&
  (match dictGetD t "msg" .null with
   | .arr ms =>
      ms.all (fun m =>
        match m with
        | .obj _ => true
        | _ => false)
   | _ => true)

/-- A mapping of mappings all of whose indicator objects are tame
(non-object indicator entries are unrestricted: they are skipped). -/
def tameDoc (data : JVal) : Bool :=
  match data with
  | .obj dkvs =>
      dkvs.all (fun kv =>
        match kv.2 with
        | .obj items =>
            items.all (fun it =>
              match it.2 with
              | .obj t => tameIndicator t
              | _ => true)
        | _ => false)
  | _ => false

/-- An indicator with given points and weight, in the shape the FAIR EVA
API returns (`points` at top level, `weight` nested under `score`). -/
def mkIndicator (points weight : ℚ) : JVal :=
  .obj [("points", .num points), ("score", .obj [("weight", .num weight)])]

/-- The asymmetric example document of the specification: findable has
one indicator with points 100 and weight 10; each other principle has
one indicator with points 0 and weight 1. -/
def exDkvsC1 : List (String × JVal) :=
  [ ("findable", .obj [("f1", mkIndicator 100 10)]),
    ("accessible", .obj [("a1", mkIndicator 0 1)]),
    ("interoperable", .obj [("i1", mkIndicator 0 1)]),
    ("reusable", .obj [("r1", mkIndicator 0 1)]) ]

/-- A mapping of mappings on which `compute_scores` raises: the
indicator's `points` is a truthy non-numeric value (a nonempty list),
so `float(...)` raises `TypeError`. -/
def badDocC2 : JVal :=
  .obj [("findable", .obj [("i", .obj [("points", .arr [.num 1])])])]

/-- A tame document exercising the degradation cases: a skipped
non-object indicator entry, a `None` points value, a scalar msg. -/
def tameDocC2 : JVal :=
  .obj
    [ ("findable", .obj
        [ ("skipped", .num 5),
          ("j", .obj [("points", .null), ("msg", .str "x")]) ]),
      ("accessible", .obj []),
      ("interoperable", .obj []),
      ("reusable", .obj []) ]

/-- A document whose single indicator carries the scalar msg `"A"`. -/
def c3cxKvs : List (String × JVal) :=
  [("findable", .obj [("i1", .obj [("msg", .str "A")])])]

/-- A document exercising the three msg shapes of the specification:
a list of message objects, no msg key, and a scalar msg. -/
def c3Kvs : List (String × JVal) :=
  [ ("findable", .obj
      [ ("i1", .obj [("msg", .arr
          [.obj [("message", .str "A")], .obj [("message", .str "B")]])]),
        ("i2", .obj []),
        ("i3", .obj [("msg", .str "A")]) ]) ]

/-- The `ScoreResult` of the empty document. -/
def emptyScoreResult : ScoreResult :=
  ⟨specPrinciples [], specFair [], colour_for (specFair [])⟩

/-- Two-indicator findable set, insertion order a then b. -/
def dkvsC9a : List (String × JVal) :=
  [("findable", .obj [("a", mkIndicator 100 1), ("b", mkIndicator 0 3)])]

/-- The same indicator set, insertion order b then a. -/
def dkvsC9b : List (String × JVal) :=
  [("findable", .obj [("b", mkIndicator 0 3), ("a", mkIndicator 100 1)])]

/-- A document with an indicator keyed `result` (clashing with the
aggregate entry) and another indicator, plus a principle mapped to
`None` and two absent principles. -/
def c10Kvs : List (String × JVal) :=
  [ ("findable", .obj [("result", mkIndicator 100 1), ("x", mkIndicator 0 1)]),
    ("accessible", .null) ]

/-- A production-style configuration (development flag off). -/
def cfgProd : Settings :=
  ⟨"http://api.example.org/", 9090, false, "sample.json"⟩

/-- The evaluation group stored in the C5 sample file. -/
def c5GroupKvs : List (String × JVal) :=
  [("findable", .obj [("g", mkIndicator 80 1)])]

/-- An environment whose API would answer HTTP 500, while the local
sample file holds a loadable document. -/
def envC5 : WebEnv :=
  ⟨.ok (.obj [("evaluator_logs", .null), ("group1", .obj c5GroupKvs)]),
    ⟨500, .error .jsonError⟩⟩

/-- The indicator loop computes the accumulated processed dict and adds
the per-item contributions to the running sums, when every entry
processes without raising. -/
theorem processItems_ok (items : List (String × JVal)) :
    ∀ (proc : List (String × JVal)) (ps ws : ℚ),
      (∀ kv ∈ items, itemOk kv = true) →
      processItems proc ps ws items =
        .ok (foldProc proc items,
             ps + (items.map contribPW).sum,
             ws + (items.map contribW).sum) := by
  induction items with
  | nil => intro proc ps ws _; simp [processItems, foldProc]
  | cons kv rest ih =>
      intro proc ps ws h
      obtain ⟨key, test⟩ := kv
      have hhead := h (key, test) (by simp)
      have htail : ∀ kv ∈ rest, itemOk kv = true := fun kv hkv => h kv (by simp [hkv])
      cases test with
      | obj tkvs =>
          rcases hpo : processOne key tkvs with e | po
          · rw [itemOk] at hhead
            simp only [hpo] at hhead
            exact Bool.noConfusion hhead
          · obtain ⟨entry, points, weight⟩ := po
            have hstep : processItems proc ps ws ((key, JVal.obj tkvs) :: rest) =
                processItems (dictInsert proc key entry)
                  (ps + points * weight) (ws + weight) rest := by
              rw [processItems]
              simp only [hpo]
            have h1 : foldProc proc ((key, JVal.obj tkvs) :: rest) =
                foldProc (dictInsert proc key entry) rest := by
              rw [foldProc, procEntryOf]
              simp only [hpo]
            have h2 : contribPW (key, JVal.obj tkvs) = points * weight := by
              rw [contribPW]
              simp only [hpo]
            have h3 : contribW (key, JVal.obj tkvs) = weight := by
              rw [contribW]
              simp only [hpo]
            rw [hstep, ih _ _ _ htail, h1]
            simp [h2, h3, add_assoc]
      | null =>
          rw [show processItems proc ps ws ((key, JVal.null) :: rest) =
                processItems proc ps ws rest from rfl,
              ih _ _ _ htail,
              show foldProc proc ((key, JVal.null) :: rest) = foldProc proc rest from rfl]
          simp [show contribPW (key, JVal.null) = 0 from rfl,
                show contribW (key, JVal.null) = 0 from rfl]
      | jbool b =>
          rw [show processItems proc ps ws ((key, JVal.jbool b) :: rest) =
                processItems proc ps ws rest from rfl,
              ih _ _ _ htail,
              show foldProc proc ((key, JVal.jbool b) :: rest) = foldProc proc rest from rfl]
          simp [show contribPW (key, JVal.jbool b) = 0 from rfl,
                show contribW (key, JVal.jbool b) = 0 from rfl]
      | num q =>
          rw [show processItems proc ps ws ((key, JVal.num q) :: rest) =
                processItems proc ps ws rest from rfl,
              ih _ _ _ htail,
              show foldProc proc ((key, JVal.num q) :: rest) = foldProc proc rest from rfl]
          simp [show contribPW (key, JVal.num q) = 0 from rfl,
                show contribW (key, JVal.num q) = 0 from rfl]
      | str s =>
          rw [show processItems proc ps ws ((key, JVal.str s) :: rest) =
                processItems proc ps ws rest from rfl,
              ih _ _ _ htail,
              show foldProc proc ((key, JVal.str s) :: rest) = foldProc proc rest from rfl]
          simp [show contribPW (key, JVal.str s) = 0 from rfl,
                show contribW (key, JVal.str s) = 0 from rfl]
      | arr xs =>
          rw [show processItems proc ps ws ((key, JVal.arr xs) :: rest) =
                processItems proc ps ws rest from rfl,
              ih _ _ _ htail,
              show foldProc proc ((key, JVal.arr xs) :: rest) = foldProc proc rest from rfl]
          simp [show contribPW (key, JVal.arr xs) = 0 from rfl,
                show contribW (key, JVal.arr xs) = 0 from rfl]

/-- If the indicator loop returns, every entry processed without
raising. -/
theorem processItems_ok_inv (items : List (String × JVal)) :
    ∀ (proc : List (String × JVal)) (ps ws : ℚ) (res : List (String × JVal) × ℚ × ℚ),
      processItems proc ps ws items = .ok res →
      ∀ kv ∈ items, itemOk kv = true := by
  induction items with
  | nil => intro _ _ _ _ _ kv hkv; exact absurd hkv (List.not_mem_nil kv)
  | cons kv0 rest ih =>
      intro proc ps ws res hres kv hkv
      obtain ⟨key, test⟩ := kv0
      cases test with
      | obj tkvs =>
          rcases hpo : processOne key tkvs with e | po
          · rw [processItems] at hres
            simp only [hpo] at hres
            exact Except.noConfusion hres
          · obtain ⟨entry, points, weight⟩ := po
            rw [processItems] at hres
            simp only [hpo] at hres
            rcases List.mem_cons.mp hkv with heq | hmem
            · subst heq
              rw [itemOk]
              simp only [hpo]
            · exact ih _ _ _ _ hres kv hmem
      | null =>
          rcases List.mem_cons.mp hkv with heq | hmem
          · subst heq; rfl
          · exact ih _ _ _ _ hres kv hmem
      | jbool b =>
          rcases List.mem_cons.mp hkv with heq | hmem
          · subst heq; rfl
          · exact ih _ _ _ _ hres kv hmem
      | num q =>
          rcases List.mem_cons.mp hkv with heq | hmem
          · subst heq; rfl
          · exact ih _ _ _ _ hres kv hmem
      | str s =>
          rcases List.mem_cons.mp hkv with heq | hmem
          · subst heq; rfl
          · exact ih _ _ _ _ hres kv hmem
      | arr xs =>
          rcases List.mem_cons.mp hkv with heq | hmem
          · subst heq; rfl
          · exact ih _ _ _ _ hres kv hmem

/-- `principleItems` in terms of the analysis-side `itemsVal`. -/
theorem principleItems_eq (dkvs : List (String × JVal)) (dim : String) :
    principleItems dkvs dim =
      match itemsVal dkvs dim with
      | some items => .ok items
      | none => .error .attributeError := by
  rw [principleItems, itemsVal]
  cases pyOr (dictGetD dkvs dim (.obj [])) (.obj []) <;> rfl

/-- The principle loop accumulates, per principle, the processed dict
with its aggregated `result` entry, and adds the per-principle sums to
the running totals, when every principle processes without raising. -/
theorem dimsLoop_ok (dkvs : List (String × JVal)) (dims : List String) :
    ∀ (principles : List (String × JVal)) (tp tw : ℚ),
      (∀ dim ∈ dims, dimOkB dkvs dim = true) →
      dimsLoop dkvs principles tp tw dims =
        .ok (dims.foldl
               (fun acc dim => dictInsert acc dim (.obj (dimProcessed dkvs dim)))
               principles,
             tp + (dims.map (dimPS dkvs)).sum,
             tw + (dims.map (dimWS dkvs)).sum) := by
  induction dims with
  | nil => intro principles tp tw _; simp [dimsLoop]
  | cons dim dims ih =>
      intro principles tp tw h
      have hd := h dim (by simp)
      have ht : ∀ d ∈ dims, dimOkB dkvs d = true := fun d hd2 => h d (by simp [hd2])
      simp only [dimOkB, Bool.and_eq_true, List.all_eq_true] at hd
      obtain ⟨h1, h2⟩ := hd
      obtain ⟨items, hitems⟩ := Option.isSome_iff_exists.mp h1
      have hdimitems : dimItems dkvs dim = items := by
        rw [dimItems, hitems]; rfl
      have hpe : principleItems dkvs dim = .ok (dimItems dkvs dim) := by
        rw [principleItems_eq, hitems, hdimitems]
      have hall : ∀ kv ∈ dimItems dkvs dim, itemOk kv = true := fun kv hkv => h2 kv hkv
      rw [dimsLoop, hpe]
      simp only [processItems_ok (dimItems dkvs dim) [] 0 0 hall]
      rw [ih _ _ _ ht]
      simp only [List.foldl_cons, List.map_cons, List.sum_cons, zero_add]
      rw [show dictInsert (foldProc [] (dimItems dkvs dim)) "result"
            (.obj
              [ ("points", .num (if ((dimItems dkvs dim).map contribW).sum > 0 then
                  round2 (((dimItems dkvs dim).map contribPW).sum /
                    ((dimItems dkvs dim).map contribW).sum) else 0)),
                ("color", .str (colour_for (if ((dimItems dkvs dim).map contribW).sum > 0 then
                  round2 (((dimItems dkvs dim).map contribPW).sum /
                    ((dimItems dkvs dim).map contribW).sum) else 0))) ]) =
          dimProcessed dkvs dim from rfl]
      simp [dimPS, dimWS, add_assoc]

/-- Folding dict insertion of the four (distinct) principle keys into an
empty dict yields the corresponding four-entry list. -/
theorem foldl_insert_fairDims (f : String → JVal) :
    fairDims.foldl (fun acc dim => dictInsert acc dim (f dim)) [] =
      fairDims.map (fun dim => (dim, f dim)) := by
  simp [fairDims, dictInsert]

/-- If the principle loop returns, every principle processed without
raising. -/
theorem dimsLoop_ok_inv (dkvs : List (String × JVal)) (dims : List String) :
    ∀ (principles : List (String × JVal)) (tp tw : ℚ)
      (res : List (String × JVal) × ℚ × ℚ),
      dimsLoop dkvs principles tp tw dims = .ok res →
      ∀ dim ∈ dims, dimOkB dkvs dim = true := by
  induction dims with
  | nil => intro _ _ _ _ _ dim hdim; exact absurd hdim (List.not_mem_nil dim)
  | cons dim0 dims ih =>
      intro principles tp tw res hres dim hdim
      rw [dimsLoop] at hres
      rcases hpi : principleItems dkvs dim0 with e | items
      · simp only [hpi] at hres
        exact Except.noConfusion hres
      · simp only [hpi] at hres
        rcases hpro : processItems [] 0 0 items with e | trip
        · simp only [hpro] at hres
          exact Except.noConfusion hres
        · obtain ⟨processed, ps, ws⟩ := trip
          simp only [hpro] at hres
          rcases List.mem_cons.mp hdim with heq | hmem
          · subst heq
            have hiv : itemsVal dkvs dim = some items := by
              rcases hiv2 : itemsVal dkvs dim with _ | items2
              · have hpe := principleItems_eq dkvs dim
                rw [hiv2, hpi] at hpe
                exact Except.noConfusion hpe
              · have hpe := principleItems_eq dkvs dim
                rw [hiv2, hpi] at hpe
                rw [Except.ok.inj hpe]
            have hdimitems : dimItems dkvs dim = items := by
              rw [dimItems, hiv]; rfl
            have hall := processItems_ok_inv items [] 0 0 (processed, ps, ws) hpro
            simp only [dimOkB, hiv, hdimitems, Option.isSome_some, Bool.true_and,
              List.all_eq_true]
            exact hall
          · exact ih _ _ _ _ hres dim hmem

/-- `compute_scores` on a document all of whose principles process
without raising: the result is exactly the analysis-side description
(principal dicts, global weighted average, banded colour). -/
theorem compute_scores_obj_ok (dkvs : List (String × JVal))
    (h : ∀ dim ∈ fairDims, dimOkB dkvs dim = true) :
    compute_scores (.obj dkvs) =
      .ok ⟨specPrinciples dkvs, specFair dkvs, colour_for (specFair dkvs)⟩ := by
  rw [compute_scores, dimsLoop_ok dkvs fairDims [] 0 0 h]
  simp only [zero_add]
  rw [show fairDims.foldl
        (fun acc dim => dictInsert acc dim (.obj (dimProcessed dkvs dim))) [] =
      specPrinciples dkvs from foldl_insert_fairDims _]
  rfl

/-- Conversely, a successful `compute_scores` run forces the document
to be an object whose principles all process without raising, and the
result to be the analysis-side description. -/
theorem compute_scores_ok_inv (data : JVal) (r : ScoreResult)
    (h : compute_scores data = .ok r) :
    ∃ dkvs, data = .obj dkvs ∧ (∀ dim ∈ fairDims, dimOkB dkvs dim = true) ∧
      r = ⟨specPrinciples dkvs, specFair dkvs, colour_for (specFair dkvs)⟩ := by
  cases data with
  | obj dkvs =>
      have hdims : ∀ dim ∈ fairDims, dimOkB dkvs dim = true := by
        rw [compute_scores] at h
        rcases hdl : dimsLoop dkvs [] 0 0 fairDims with e | trip
        · simp only [hdl] at h
          exact Except.noConfusion h
        · exact dimsLoop_ok_inv dkvs fairDims [] 0 0 trip hdl
      have hok := compute_scores_obj_ok dkvs hdims
      rw [hok] at h
      exact ⟨dkvs, rfl, hdims, (Except.ok.inj h).symm⟩
  | null => exact Except.noConfusion h
  | jbool b => exact Except.noConfusion h
  | num q => exact Except.noConfusion h
  | str s => exact Except.noConfusion h
  | arr xs => exact Except.noConfusion h

/-- Looking up the key just assigned returns the assigned value. -/
theorem jlookup_dictInsert_self (kvs : List (String × JVal)) (k : String) (v : JVal) :
    jlookup (dictInsert kvs k v) k = some v := by
  induction kvs with
  | nil => simp [dictInsert, jlookup]
  | cons kv rest ih =>
      obtain ⟨k1, v1⟩ := kv
      by_cases hk : k1 = k
      · subst hk; simp [dictInsert, jlookup]
      · simp [dictInsert, jlookup, hk, ih]

/-- In the returned principles mapping, each principle key holds its
processed dict. -/
theorem jlookup_specPrinciples (dkvs : List (String × JVal)) (dim : String)
    (h : dim ∈ fairDims) :
    jlookup (specPrinciples dkvs) dim = some (.obj (dimProcessed dkvs dim)) := by
  simp only [fairDims, List.mem_cons, List.mem_singleton, List.not_mem_nil, or_false] at h
  rcases h with rfl | rfl | rfl | rfl <;> simp [specPrinciples, fairDims, jlookup]

/-- The `result` entry of a processed principle dict. -/
theorem jlookup_dimProcessed_result (dkvs : List (String × JVal)) (dim : String) :
    jlookup (dimProcessed dkvs dim) "result" =
      some (.obj [ ("points", .num (dimResult dkvs dim)),
                   ("color", .str (colour_for (dimResult dkvs dim))) ]) := by
  rw [dimProcessed]
  exact jlookup_dictInsert_self _ _ _

/-- The aggregated points of each principle, read off the result. -/
theorem resultPointsOf_spec (dkvs : List (String × JVal)) (dim : String)
    (h : dim ∈ fairDims) :
    resultPointsOf ⟨specPrinciples dkvs, specFair dkvs, colour_for (specFair dkvs)⟩ dim =
      some (dimResult dkvs dim) := by
  rw [resultPointsOf]
  simp only [jlookup_specPrinciples dkvs dim h, jlookup_dimProcessed_result]
  simp [jlookup]

/-- The aggregated colour of each principle, read off the result. -/
theorem resultColorOf_spec (dkvs : List (String × JVal)) (dim : String)
    (h : dim ∈ fairDims) :
    resultColorOf ⟨specPrinciples dkvs, specFair dkvs, colour_for (specFair dkvs)⟩ dim =
      some (.str (colour_for (dimResult dkvs dim))) := by
  rw [resultColorOf]
  simp only [jlookup_specPrinciples dkvs dim h, jlookup_dimProcessed_result]
  simp [jlookup]

/-- The specification's sum over all indicators of all principles equals
the loop's sum of per-principle sums (weighted points). -/
theorem globalPW_eq (dkvs : List (String × JVal)) : globalPW dkvs = totalPS dkvs := by
  simp only [globalPW, allItems, totalPS, List.map_flatten, List.sum_flatten,
    List.map_map]
  rfl

/-- The specification's sum over all indicators of all principles equals
the loop's sum of per-principle sums (weights). -/
theorem globalW_eq (dkvs : List (String × JVal)) : globalW dkvs = totalWS dkvs := by
  simp only [globalW, allItems, totalWS, List.map_flatten, List.sum_flatten,
    List.map_map]
  rfl

/-- `float(v or 0.0)` cannot raise on a tame value. -/
theorem pyFloat_pyOr_tame (v : JVal) (hv : tameNum v = true) :
    ∃ q, pyFloat (pyOr v (.num 0)) = .ok q := by
  rcases htr : truthy v with _ | _
  · exact ⟨0, by simp [pyOr, htr, pyFloat]⟩
  · cases v with
    | num q => exact ⟨q, by simp [pyOr, htr, pyFloat]⟩
    | jbool b => exact ⟨if b then 1 else 0, by simp [pyOr, htr, pyFloat]⟩
    | null => simp [truthy] at htr
    | str s =>
        rw [tameNum] at hv
        have h1 : s = "" := of_decide_eq_true hv
        subst h1
        simp [truthy] at htr
    | arr xs =>
        rw [tameNum] at hv
        have h1 : xs = [] := List.isEmpty_iff.mp hv
        subst h1
        simp [truthy] at htr
    | obj kvs =>
        rw [tameNum] at hv
        have h1 : kvs = [] := List.isEmpty_iff.mp hv
        subst h1
        simp [truthy] at htr

/-- The message comprehension cannot raise on a list of objects. -/
theorem formatList_ok (ms : List JVal)
    (h : ∀ m ∈ ms, ∃ mk, m = JVal.obj mk) :
    ∃ vs, formatList ms = .ok vs := by
  induction ms with
  | nil => exact ⟨[], rfl⟩
  | cons m rest ih =>
      obtain ⟨mk, rfl⟩ := h m (by simp)
      obtain ⟨vs, hvs⟩ := ih (fun m hm => h m (by simp [hm]))
      refine ⟨dictGetD mk "message" (.str "") :: vs, ?_⟩
      rw [formatList]
      simp only [messageField, hvs]

/-- A tame indicator object processes without raising. -/
theorem tameIndicator_itemOk (key : String) (t : List (String × JVal))
    (h : tameIndicator t = true) : itemOk (key, .obj t) = true := by
  simp only [tameIndicator, Bool.and_eq_true] at h
  obtain ⟨⟨hp, hw⟩, hm⟩ := h
  obtain ⟨p, hpq⟩ := pyFloat_pyOr_tame _ hp
  have hip : itemPoints t = .ok p := hpq
  have hiw : ∃ w, itemWeight t = .ok w := by
    rcases hsc : dictGetD t "score" (.obj []) with _ | b | q | s | xs | skvs
    · rw [hsc] at hw; exact Bool.noConfusion hw
    · rw [hsc] at hw; exact Bool.noConfusion hw
    · rw [hsc] at hw; exact Bool.noConfusion hw
    · rw [hsc] at hw; exact Bool.noConfusion hw
    · rw [hsc] at hw; exact Bool.noConfusion hw
    · rw [hsc] at hw
      obtain ⟨w, hwq⟩ := pyFloat_pyOr_tame _ hw
      refine ⟨w, ?_⟩
      rw [itemWeight]
      simp only [hsc]
      exact hwq
  obtain ⟨w, hiw⟩ := hiw
  have hfm : ∃ fm, formatMsg (dictGetD t "msg" .null) = .ok fm := by
    rcases hmg : dictGetD t "msg" .null with _ | b | q | s | xs | mkvs
    · exact ⟨_, rfl⟩
    · exact ⟨_, rfl⟩
    · exact ⟨_, rfl⟩
    · exact ⟨_, rfl⟩
    · rw [hmg] at hm
      have hobj : ∀ m ∈ xs, ∃ mk, m = JVal.obj mk := by
        intro m hmem
        have := List.all_eq_true.mp hm m hmem
        cases m with
        | obj mk => exact ⟨mk, rfl⟩
        | null => exact Bool.noConfusion this
        | jbool b => exact Bool.noConfusion this
        | num q => exact Bool.noConfusion this
        | str s => exact Bool.noConfusion this
        | arr ys => exact Bool.noConfusion this
      obtain ⟨vs, hvs⟩ := formatList_ok xs hobj
      exact ⟨.arr vs, by rw [formatMsg]; simp only [hvs]⟩
    · exact ⟨_, rfl⟩
  obtain ⟨fm, hfm⟩ := hfm
  rw [itemOk]
  simp only [processOne, hip, hiw, hfm]

/-- Every entry of a tame indicator list processes without raising. -/
theorem tameItems_all_itemOk (items : List (String × JVal))
    (h : items.all
      (fun it =>
        match it.2 with
        | .obj t => tameIndicator t
        | _ => true) = true) :
    ∀ kv ∈ items, itemOk kv = true := by
  intro kv hkv
  have hp := List.all_eq_true.mp h kv hkv
  obtain ⟨k, v⟩ := kv
  cases v with
  | obj t => exact tameIndicator_itemOk k t (by simpa using hp)
  | null => rfl
  | jbool b => rfl
  | num q => rfl
  | str s => rfl
  | arr xs => rfl

/-- `d.get(k, default)` returns the default or a value stored at `k`. -/
theorem dictGetD_mem (kvs : List (String × JVal)) (k : String) (d : JVal) :
    dictGetD kvs k d = d ∨ (k, dictGetD kvs k d) ∈ kvs := by
  induction kvs with
  | nil => exact Or.inl rfl
  | cons kv rest ih =>
      obtain ⟨k1, v1⟩ := kv
      by_cases hk : k1 = k
      · subst hk
        right
        simp [dictGetD]
      · rw [dictGetD]
        simp only [hk, if_false]
        rcases ih with h1 | h1
        · exact Or.inl h1
        · exact Or.inr (List.mem_cons_of_mem _ h1)

/-- Every principle of a tame document processes without raising. -/
theorem tameDoc_dimOk (dkvs : List (String × JVal))
    (h : tameDoc (.obj dkvs) = true) :
    ∀ dim ∈ fairDims, dimOkB dkvs dim = true := by
  intro dim _
  rw [tameDoc] at h
  rcases dictGetD_mem dkvs dim (.obj []) with hd | hd
  · simp [dimOkB, itemsVal, dimItems, hd, pyOr, truthy]
  · have hp := List.all_eq_true.mp h _ hd
    rcases hv : dictGetD dkvs dim (.obj []) with _ | b | q | s | xs | items
    all_goals rw [hv] at hp hd
    · exact Bool.noConfusion hp
    · exact Bool.noConfusion hp
    · exact Bool.noConfusion hp
    · exact Bool.noConfusion hp
    · exact Bool.noConfusion hp
    · have hall := tameItems_all_itemOk items hp
      rcases htr : truthy (JVal.obj items) with _ | _
      · simp [dimOkB, itemsVal, dimItems, hv, pyOr, htr]
      · simp only [dimOkB, itemsVal, dimItems, hv, pyOr, htr, if_true]
        simp only [Option.isSome_some, Option.getD_some, Bool.true_and, List.all_eq_true]
        exact hall

/-- `compute_scores` returns on every tame document. -/
theorem compute_scores_tame_ok (data : JVal) (h : tameDoc data = true) :
    ∃ r, compute_scores data = .ok r := by
  cases data with
  | obj dkvs => exact ⟨_, compute_scores_obj_ok dkvs (tameDoc_dimOk dkvs h)⟩
  | null => exact Bool.noConfusion h
  | jbool b => exact Bool.noConfusion h
  | num q => exact Bool.noConfusion h
  | str s => exact Bool.noConfusion h
  | arr xs => exact Bool.noConfusion h

/-- For a nonempty identifier, the handler always takes the
development-mode branch (the forced override at app.py line 257),
regardless of the configured flag, and issues no HTTP request. -/
theorem evaluator_dev (cfg : Settings) (env : WebEnv) (item_id : String)
    (hid : ¬ item_id = "") :
    evaluator cfg env item_id =
      (match devLoad env with
       | .error _ => Page.errorPage errLoad
       | .ok none => Page.errorPage errNoData
       | .ok (some d) =>
           if truthy d then
             match compute_scores d with
             | .error e => Page.crash e
             | .ok r => Page.evalPage r.principles r.fair_points r.fair_color
           else Page.errorPage errNoData,
       []) := by
  simp only [evaluator, if_neg hid]
  rcases devLoad env with e | (_ | d)
  · rfl
  · rfl
  · dsimp only
    rcases htr : truthy d with _ | _
    · simp [htr]
    · simp only [htr, if_true]
      rcases compute_scores d with e | r <;> rfl

/-- C7: for every numeric score value, the colour banding of
`colour_for` — used for indicators, principle aggregates and the
overall score — is closed at its thresholds: at least 75 maps to
green, at least 50 but below 75 maps to yellow, and below 50 maps to
red (so 75.0 is green, 74.99 is yellow, 50.0 is yellow, 49.99 is
red). -/
theorem fairEva_C7 (v : ℚ) :
    (colour_for v = greenHex ↔ 75 ≤ v) ∧
    (colour_for v = yellowHex ↔ 50 ≤ v ∧ v < 75) ∧
    (colour_for v = redHex ↔ v < 50) := by
  have hgy : greenHex ≠ yellowHex := by decide
  have hgr : greenHex ≠ redHex := by decide
  have hyr : yellowHex ≠ redHex := by decide
  rw [colour_for]
  split_ifs with h1 h2
  · exact ⟨⟨fun _ => h1, fun _ => rfl⟩,
      ⟨fun h => (hgy h).elim, fun h => absurd h.2 (not_lt.mpr h1)⟩,
      ⟨fun h => (hgr h).elim,
       fun h => absurd h (not_lt.mpr (le_trans (by norm_num) h1))⟩⟩
  · exact ⟨⟨fun h => (hgy h.symm).elim, fun h => absurd h h1⟩,
      ⟨fun _ => ⟨h2, not_le.mp h1⟩, fun _ => rfl⟩,
      ⟨fun h => (hyr h).elim, fun h => absurd h (not_lt.mpr h2)⟩⟩
  · exact ⟨⟨fun h => (hgr h.symm).elim, fun h => absurd h h1⟩,
      ⟨fun h => (hyr h.symm).elim, fun h => absurd h.1 h2⟩,
      ⟨fun _ => not_le.mp h2, fun _ => rfl⟩⟩

/-- C8: whenever `compute_scores` returns and a principle's accumulated
weight is 0 (empty indicator set or all-zero weights included), that
principle's aggregate is exactly 0 and its colour is red. -/
theorem fairEva_C8 (dkvs : List (String × JVal)) (r : ScoreResult) (dim : String)
    (hok : compute_scores (.obj dkvs) = .ok r) (hdim : dim ∈ fairDims)
    (hzero : dimWS dkvs dim = 0) :
    resultPointsOf r dim = some 0 ∧ resultColorOf r dim = some (.str redHex) := by
  obtain ⟨dkvs2, heq, hdims, hr⟩ := compute_scores_ok_inv _ _ hok
  have hd : dkvs = dkvs2 := JVal.obj.inj heq
  subst hd
  subst hr
  have h0 : dimResult dkvs dim = 0 := by
    rw [dimResult, hzero]
    norm_num
  have hred : colour_for (0 : ℚ) = redHex := by
    rw [colour_for]
    norm_num
  rw [resultPointsOf_spec dkvs dim hdim, resultColorOf_spec dkvs dim hdim, h0, hred]
  exact ⟨rfl, rfl⟩

/-- C8 witness: the empty document has weight 0 in every principle, and
its findable aggregate is 0 and red. -/
theorem fairEva_C8_witness :
    resultPointsOf emptyScoreResult "findable" = some 0 ∧
    resultColorOf emptyScoreResult "findable" = some (.str redHex) :=
  fairEva_C8 [] emptyScoreResult "findable"
    (compute_scores_obj_ok [] (fun _ _ => rfl)) (by simp [fairDims]) rfl

/-- The loaders' key-selection loop picks the first entry whose key is
not the reserved logging key. -/
theorem firstNonLogKey_eq_find (kvs : List (String × JVal)) :
    firstNonLogKey kvs =
      (kvs.find? (fun kv => kv.1 ≠ "evaluator_logs")).map Prod.snd := by
  induction kvs with
  | nil => rfl
  | cons kv rest ih =>
      obtain ⟨k, v⟩ := kv
      by_cases hk : k = "evaluator_logs"
      · subst hk
        rw [firstNonLogKey]
        simp [List.find?_cons, ih]
      · rw [firstNonLogKey]
        simp [List.find?_cons, hk]

/-- C6: the development-mode loader parses the configured file as JSON
and returns the value of the first top-level key, in document order,
whose name is not the reserved key `evaluator_logs`. -/
theorem fairEva_C6 (env : WebEnv) (kvs : List (String × JVal))
    (h : env.fileJson = .ok (.obj kvs)) :
    devLoad env =
      .ok ((kvs.find? (fun kv => kv.1 ≠ "evaluator_logs")).map Prod.snd) := by
  rw [devLoad, h]
  show Except.ok (firstNonLogKey kvs) = _
  rw [firstNonLogKey_eq_find]

/-- C6 witness: on a fixture with keys `evaluator_logs` and `group1`,
the loader returns the value under `group1`. -/
theorem fairEva_C6_witness :
    devLoad ⟨.ok (.obj [("evaluator_logs", .null), ("group1", .num 1)]),
        ⟨200, .error .jsonError⟩⟩ =
      .ok (some (.num 1)) := by
  rw [fairEva_C6 _ [("evaluator_logs", .null), ("group1", .num 1)] rfl]
  rfl

/-- C4: contrary to the claim, a configuration with the development
flag off does NOT load in production mode: the handler issues no HTTP
request and behaves identically to a development-mode configuration,
because app.py line 257 overwrites the flag with `True` before the
branch.  (The configured mode flag is ignored.) -/
theorem fairEva_C4 (cfg : Settings) (env : WebEnv) (item_id : String)
    (hid : item_id ≠ "") (_hdev : cfg.dev_mode = false) :
    (evaluator cfg env item_id).2 = [] ∧
    (evaluator cfg env item_id).1 =
      (evaluator { cfg with dev_mode := true } env item_id).1 := by
  rw [evaluator_dev cfg env item_id hid,
      evaluator_dev { cfg with dev_mode := true } env item_id hid]
  exact ⟨rfl, rfl⟩

/-- C4 witness: a concrete production-flagged configuration issues no
request and renders exactly as the development configuration would. -/
theorem fairEva_C4_witness :
    (evaluator cfgProd ⟨.error .ioError, ⟨200, .error .jsonError⟩⟩ "pid").2 = [] ∧
    (evaluator cfgProd ⟨.error .ioError, ⟨200, .error .jsonError⟩⟩ "pid").1 =
      (evaluator { cfgProd with dev_mode := true }
        ⟨.error .ioError, ⟨200, .error .jsonError⟩⟩ "pid").1 :=
  fairEva_C4 cfgProd ⟨.error .ioError, ⟨200, .error .jsonError⟩⟩ "pid" (by decide) rfl

/-- C5: with the development flag off and an API that would answer
HTTP 500, the handler issues no HTTP POST at all and renders an
evaluation page computed from the local sample file — the claimed
production-mode behaviour does not occur (the override of app.py line
257 prevents it).  The production branch itself (app.py lines
267-278), were it executed, would issue exactly one POST to
`{api_url}:{api_port}/v1.0/rda/rda_all` with body
`{"id": <identifier>, "lang": "en"}` and would raise on the 500
response, reaching the generic error page with no aggregation
output. -/
theorem fairEva_C5 :
    (evaluator cfgProd envC5 "pid-1").2 = [] ∧
    (evaluator cfgProd envC5 "pid-1").1 =
      Page.evalPage (specPrinciples c5GroupKvs) 80 greenHex ∧
    (prodLoad cfgProd envC5 "pid-1").2 = [⟨endpointOf cfgProd, payloadOf "pid-1"⟩] ∧
    endpointOf cfgProd = "http://api.example.org:9090/v1.0/rda/rda_all" ∧
    payloadOf "pid-1" = .obj [("id", .str "pid-1"), ("lang", .str "en")] ∧
    (prodLoad cfgProd envC5 "pid-1").1 = .error .httpError := by
  have hdl : devLoad envC5 = .ok (some (.obj c5GroupKvs)) := rfl
  have hdims : ∀ dim ∈ fairDims, dimOkB c5GroupKvs dim = true := by
    norm_num +decide [fairDims, List.forall_mem_cons, dimOkB, itemsVal, dimItems,
      itemOk, processOne, itemPoints, itemWeight, messageField, formatList,
      formatMsg, pyFloat, pyOr, truthy, dictGetD, c5GroupKvs, mkIndicator]
  have hok := compute_scores_obj_ok c5GroupKvs hdims
  have hfair : specFair c5GroupKvs = 80 := by
    norm_num +decide [specFair, totalPS, totalWS, dimPS, dimWS, dimItems, itemsVal,
      contribPW, contribW, processOne, itemPoints, itemWeight, formatMsg,
      formatList, messageField, pyFloat, pyOr, truthy, dictGetD,
      fairDims, c5GroupKvs, mkIndicator, round2, round_eq]
  have hgreen : colour_for (80 : ℚ) = greenHex := by
    rw [colour_for]
    norm_num
  refine ⟨?_, ?_, rfl, by decide, rfl, rfl⟩
  · rw [evaluator_dev cfgProd envC5 "pid-1" (by decide)]
  · rw [evaluator_dev cfgProd envC5 "pid-1" (by decide), hdl]
    dsimp only
    rw [show truthy (.obj c5GroupKvs) = true from rfl]
    simp only [if_true, hok]
    rw [hfair, hgreen]

/-- C1: the overall FAIR score is the global weighted average over all
indicators of all four principles (sum of points times weight divided
by sum of weights, rounded to two decimals) — not the mean of the four
principle aggregates.  On the asymmetric example (findable: one
indicator with points 100 and weight 10; the three other principles:
one indicator each with points 0 and weight 1) the overall score is
round(1000/13, 2) = 76.92, while the mean of the per-principle
aggregates 100, 0, 0, 0 would be 25. -/
theorem fairEva_C1 :
    (∀ dkvs : List (String × JVal),
        (∀ dim ∈ fairDims, dimOkB dkvs dim = true) →
        0 < globalW dkvs →
        ∃ r, compute_scores (.obj dkvs) = .ok r ∧
          r.fair_points = round2 (globalPW dkvs / globalW dkvs)) ∧
    (∃ r, compute_scores (.obj exDkvsC1) = .ok r ∧
        r.fair_points = 76.92 ∧
        resultPointsOf r "findable" = some 100 ∧
        resultPointsOf r "accessible" = some 0 ∧
        resultPointsOf r "interoperable" = some 0 ∧
        resultPointsOf r "reusable" = some 0 ∧
        (100 + 0 + 0 + 0 : ℚ) / 4 = 25 ∧
        r.fair_points ≠ 25) := by
  constructor
  · intro dkvs h hw
    refine ⟨_, compute_scores_obj_ok dkvs h, ?_⟩
    show specFair dkvs = round2 (globalPW dkvs / globalW dkvs)
    rw [globalPW_eq, globalW_eq, specFair,
      if_pos (by rw [globalW_eq] at hw; exact hw)]
  · have hdims : ∀ dim ∈ fairDims, dimOkB exDkvsC1 dim = true := by
      norm_num +decide [fairDims, List.forall_mem_cons, dimOkB, itemsVal, dimItems,
        itemOk, processOne, itemPoints, itemWeight, messageField, formatList,
        formatMsg, pyFloat, pyOr, truthy, dictGetD, exDkvsC1, mkIndicator]
    have hfair : specFair exDkvsC1 = 76.92 := by
      norm_num +decide [specFair, totalPS, totalWS, dimPS, dimWS, dimItems, itemsVal,
        contribPW, contribW, processOne, itemPoints, itemWeight, formatMsg,
        formatList, messageField, pyFloat, pyOr, truthy, dictGetD,
        fairDims, exDkvsC1, mkIndicator, round2, round_eq]
    have hres : ∀ dim ∈ fairDims, ∀ q : ℚ, dimResult exDkvsC1 dim = q →
        resultPointsOf ⟨specPrinciples exDkvsC1, specFair exDkvsC1,
          colour_for (specFair exDkvsC1)⟩ dim = some q := by
      intro dim hdim q hq
      rw [resultPointsOf_spec exDkvsC1 dim hdim, hq]
    refine ⟨_, compute_scores_obj_ok exDkvsC1 hdims, hfair, ?_, ?_, ?_, ?_,
      by norm_num, by rw [hfair]; norm_num⟩
    · refine hres "findable" (by norm_num [fairDims]) 100 ?_
      norm_num +decide [dimResult, dimPS, dimWS, dimItems, itemsVal, contribPW,
        contribW, processOne, itemPoints, itemWeight, formatMsg, formatList,
        messageField, pyFloat, pyOr, truthy, dictGetD, exDkvsC1, mkIndicator,
        round2, round_eq]
    · refine hres "accessible" (by norm_num [fairDims]) 0 ?_
      norm_num +decide [dimResult, dimPS, dimWS, dimItems, itemsVal, contribPW,
        contribW, processOne, itemPoints, itemWeight, formatMsg, formatList,
        messageField, pyFloat, pyOr, truthy, dictGetD, exDkvsC1, mkIndicator,
        round2, round_eq]
    · refine hres "interoperable" (by norm_num [fairDims]) 0 ?_
      norm_num +decide [dimResult, dimPS, dimWS, dimItems, itemsVal, contribPW,
        contribW, processOne, itemPoints, itemWeight, formatMsg, formatList,
        messageField, pyFloat, pyOr, truthy, dictGetD, exDkvsC1, mkIndicator,
        round2, round_eq]
    · refine hres "reusable" (by norm_num [fairDims]) 0 ?_
      norm_num +decide [dimResult, dimPS, dimWS, dimItems, itemsVal, contribPW,
        contribW, processOne, itemPoints, itemWeight, formatMsg, formatList,
        messageField, pyFloat, pyOr, truthy, dictGetD, exDkvsC1, mkIndicator,
        round2, round_eq]

/-- C1 witness: the asymmetric example satisfies the hypotheses of the
general statement, whose conclusion is the global weighted average. -/
theorem fairEva_C1_witness :
    ∃ r, compute_scores (.obj exDkvsC1) = .ok r ∧
      r.fair_points = round2 (globalPW exDkvsC1 / globalW exDkvsC1) :=
  fairEva_C1.1 exDkvsC1
    (by norm_num +decide [fairDims, List.forall_mem_cons, dimOkB, itemsVal, dimItems,
      itemOk, processOne, itemPoints, itemWeight, messageField, formatList,
      formatMsg, pyFloat, pyOr, truthy, dictGetD, exDkvsC1, mkIndicator])
    (by norm_num +decide [globalW, allItems, fairDims, dimItems, itemsVal, contribW,
      processOne, itemPoints, itemWeight, formatMsg, formatList, messageField,
      pyFloat, pyOr, truthy, dictGetD, exDkvsC1, mkIndicator])

/-- C2 counterexample: a mapping of mappings on which `compute_scores`
raises — the indicator's `points` is a truthy non-numeric value (a
nonempty list), so `float(...)` raises `TypeError` instead of
degrading to zero.  The function is therefore not total over mappings
of mappings. -/
theorem fairEva_C2_cx :
    mappingOfMappings badDocC2 = true ∧
    compute_scores badDocC2 = .error .typeError := by
  constructor
  · rfl
  · norm_num +decide [compute_scores, dimsLoop, principleItems, processItems,
      processOne, itemPoints, itemWeight, messageField, formatList, formatMsg,
      processedEntry, pyFloat, pyFloatOfString, pyOr, truthy, dictGetD,
      dictInsert, round2, colour_for, fairDims, badDocC2, round_eq]

/-- C2 (amended): `compute_scores` is total over every mapping of
mappings whose indicator objects are tame — `points` absent, `None`,
boolean, numeric or falsy; `score` absent or an object with a tame
`weight`; `msg` absent, not a list, or a list of objects.  Non-object
indicator entries are skipped silently and the falsy or missing values
contribute zero points and zero weight.  (A truthy non-numeric
`points` or `weight`, a present non-object `score`, or a `msg` list
holding a non-object raises instead.) -/
theorem fairEva_C2 (data : JVal) (h : tameDoc data = true) :
    ∃ r, compute_scores data = .ok r :=
  compute_scores_tame_ok data h

/-- C2 witness: a tame document with a skipped entry, a `None` points
value and a scalar msg is processed without raising. -/
theorem fairEva_C2_witness : ∃ r, compute_scores tameDocC2 = .ok r :=
  fairEva_C2 tameDocC2 rfl

/-- The message comprehension on a list of objects returns their
`message` fields (defaulting to the empty string). -/
theorem formatList_map_obj (ms : List (List (String × JVal))) :
    formatList (ms.map JVal.obj) =
      .ok (ms.map (fun m => dictGetD m "message" (.str ""))) := by
  induction ms with
  | nil => rfl
  | cons m rest ih =>
      rw [List.map_cons, formatList]
      simp only [messageField, ih]
      rfl

/-- C3 counterexample: an indicator with the scalar msg `"A"` is NOT
normalised to the list `["A"]`: the processed `msg` field is the raw
string `"A"` itself, which is not a list of strings. -/
theorem fairEva_C3_cx :
    ∃ r, compute_scores (.obj c3cxKvs) = .ok r ∧
      indicatorField r "findable" "i1" "msg" = some (.str "A") ∧
      JVal.str "A" ≠ JVal.arr [JVal.str "A"] := by
  have hdims : ∀ dim ∈ fairDims, dimOkB c3cxKvs dim = true := by
    norm_num +decide [fairDims, List.forall_mem_cons, dimOkB, itemsVal, dimItems,
      itemOk, processOne, itemPoints, itemWeight, messageField, formatList,
      formatMsg, pyFloat, pyOr, truthy, dictGetD, c3cxKvs]
  refine ⟨_, compute_scores_obj_ok c3cxKvs hdims, ?_, by simp⟩
  norm_num +decide [indicatorField, specPrinciples, fairDims, dimProcessed,
    dimResult, dimPS, dimWS, dimItems, itemsVal, foldProc, procEntryOf,
    contribPW, contribW, processOne, processedEntry, itemPoints, itemWeight,
    formatMsg, formatList, messageField, pyFloat, pyOr, truthy, dictGetD,
    dictInsert, jlookup, round2, colour_for, c3cxKvs, round_eq]

/-- C3 (amended): the msg normalisation of `compute_scores` maps a
list-of-objects msg to the list of their `message` fields (so
`[{"message": "A"}, {"message": "B"}]` yields `["A", "B"]`), an absent
msg to the empty list, and passes a non-list msg through `msg or []`
unchanged when truthy — so the scalar `"A"` yields the raw string
`"A"`, not `["A"]`. -/
theorem fairEva_C3 :
    (∀ ms : List (List (String × JVal)),
        formatMsg (.arr (ms.map JVal.obj)) =
          .ok (.arr (ms.map (fun m => dictGetD m "message" (.str ""))))) ∧
    formatMsg .null = .ok (.arr []) ∧
    (∀ s : String, formatMsg (.str s) = .ok (pyOr (.str s) (.arr []))) ∧
    (∃ r, compute_scores (.obj c3Kvs) = .ok r ∧
        indicatorField r "findable" "i1" "msg" = some (.arr [.str "A", .str "B"]) ∧
        indicatorField r "findable" "i2" "msg" = some (.arr []) ∧
        indicatorField r "findable" "i3" "msg" = some (.str "A")) := by
  refine ⟨?_, rfl, fun s => rfl, ?_⟩
  · intro ms
    simp only [formatMsg, formatList_map_obj]
  · have hdims : ∀ dim ∈ fairDims, dimOkB c3Kvs dim = true := by
      norm_num +decide [fairDims, List.forall_mem_cons, dimOkB, itemsVal, dimItems,
        itemOk, processOne, itemPoints, itemWeight, messageField, formatList,
        formatMsg, pyFloat, pyOr, truthy, dictGetD, c3Kvs]
    refine ⟨_, compute_scores_obj_ok c3Kvs hdims, ?_, ?_, ?_⟩
    all_goals
      norm_num +decide [indicatorField, specPrinciples, fairDims, dimProcessed,
        dimResult, dimPS, dimWS, dimItems, itemsVal, foldProc, procEntryOf,
        contribPW, contribW, processOne, processedEntry, itemPoints, itemWeight,
        formatMsg, formatList, messageField, pyFloat, pyOr, truthy, dictGetD,
        dictInsert, jlookup, round2, colour_for, c3Kvs, round_eq]

/-- C9: aggregation is order-independent — permuting the insertion
order of the indicator entries within each principle changes neither
the per-principle aggregate points and colours nor the overall score
and colour. -/
theorem fairEva_C9 (dkvs1 dkvs2 : List (String × JVal)) (r1 r2 : ScoreResult)
    (h1 : compute_scores (.obj dkvs1) = .ok r1)
    (h2 : compute_scores (.obj dkvs2) = .ok r2)
    (hperm : ∀ dim ∈ fairDims, (dimItems dkvs1 dim).Perm (dimItems dkvs2 dim)) :
    r1.fair_points = r2.fair_points ∧ r1.fair_color = r2.fair_color ∧
    ∀ dim ∈ fairDims,
      resultPointsOf r1 dim = resultPointsOf r2 dim ∧
      resultColorOf r1 dim = resultColorOf r2 dim := by
  obtain ⟨d1, he1, _, hr1⟩ := compute_scores_ok_inv _ _ h1
  have hd1 : dkvs1 = d1 := JVal.obj.inj he1
  subst hd1
  subst hr1
  obtain ⟨d2, he2, _, hr2⟩ := compute_scores_ok_inv _ _ h2
  have hd2 : dkvs2 = d2 := JVal.obj.inj he2
  subst hd2
  subst hr2
  have hPS : ∀ dim ∈ fairDims, dimPS dkvs1 dim = dimPS dkvs2 dim :=
    fun dim hdim => ((hperm dim hdim).map contribPW).sum_eq
  have hWS : ∀ dim ∈ fairDims, dimWS dkvs1 dim = dimWS dkvs2 dim :=
    fun dim hdim => ((hperm dim hdim).map contribW).sum_eq
  have hDR : ∀ dim ∈ fairDims, dimResult dkvs1 dim = dimResult dkvs2 dim := by
    intro dim hdim
    rw [dimResult, dimResult, hPS dim hdim, hWS dim hdim]
  have hSF : specFair dkvs1 = specFair dkvs2 := by
    rw [specFair, specFair, totalPS, totalPS, totalWS, totalWS,
      List.map_congr_left hPS, List.map_congr_left hWS]
  refine ⟨hSF, ?_, ?_⟩
  · show colour_for (specFair dkvs1) = colour_for (specFair dkvs2)
    rw [hSF]
  · intro dim hdim
    rw [resultPointsOf_spec dkvs1 dim hdim, resultPointsOf_spec dkvs2 dim hdim,
      resultColorOf_spec dkvs1 dim hdim, resultColorOf_spec dkvs2 dim hdim,
      hDR dim hdim]
    exact ⟨rfl, rfl⟩

/-- C9 witness: swapping the two findable indicators leaves the overall
score unchanged. -/
theorem fairEva_C9_witness :
    (⟨specPrinciples dkvsC9a, specFair dkvsC9a,
        colour_for (specFair dkvsC9a)⟩ : ScoreResult).fair_points =
      (⟨specPrinciples dkvsC9b, specFair dkvsC9b,
        colour_for (specFair dkvsC9b)⟩ : ScoreResult).fair_points :=
  (fairEva_C9 dkvsC9a dkvsC9b _ _
    (compute_scores_obj_ok dkvsC9a
      (by norm_num +decide [fairDims, List.forall_mem_cons, dimOkB, itemsVal,
        dimItems, itemOk, processOne, itemPoints, itemWeight, messageField,
        formatList, formatMsg, pyFloat, pyOr, truthy, dictGetD, dkvsC9a,
        mkIndicator]))
    (compute_scores_obj_ok dkvsC9b
      (by norm_num +decide [fairDims, List.forall_mem_cons, dimOkB, itemsVal,
        dimItems, itemOk, processOne, itemPoints, itemWeight, messageField,
        formatList, formatMsg, pyFloat, pyOr, truthy, dictGetD, dkvsC9b,
        mkIndicator]))
    (by
      intro dim hdim
      simp only [fairDims, List.mem_cons, List.mem_singleton,
        List.not_mem_nil, or_false] at hdim
      rcases hdim with rfl | rfl | rfl | rfl
      · exact List.Perm.swap ("b", mkIndicator 0 3) ("a", mkIndicator 100 1) []
      · exact List.Perm.refl []
      · exact List.Perm.refl []
      · exact List.Perm.refl [])).1

/-- C10: whenever `compute_scores` returns, the principles mapping has
exactly the four keys findable, accessible, interoperable, reusable —
in that order — each holding a `result` entry with numeric points and
a colour, even when the input lacks keys or maps them to `None`.  An
input indicator keyed `result` is overwritten in place by the
aggregate (the findable keys stay `result`, `x`), yet its points and
weight still count: the aggregate is (100*1 + 0*1)/2 = 50, not an
average over `x` alone. -/
theorem fairEva_C10 :
    (∀ (dkvs : List (String × JVal)) (r : ScoreResult),
        compute_scores (.obj dkvs) = .ok r →
        r.principles.map Prod.fst = fairDims ∧
        ∀ dim ∈ fairDims, ∃ pts colr,
          resultPointsOf r dim = some pts ∧
          resultColorOf r dim = some (.str colr)) ∧
    ((dimProcessed c10Kvs "findable").map Prod.fst = ["result", "x"] ∧
     ∃ r, compute_scores (.obj c10Kvs) = .ok r ∧
        resultPointsOf r "findable" = some 50 ∧
        resultPointsOf r "accessible" = some 0 ∧
        resultPointsOf r "interoperable" = some 0 ∧
        resultPointsOf r "reusable" = some 0) := by
  constructor
  · intro dkvs r hok
    obtain ⟨d, he, _, hr⟩ := compute_scores_ok_inv _ _ hok
    have hd : dkvs = d := JVal.obj.inj he
    subst hd
    subst hr
    constructor
    · show (specPrinciples dkvs).map Prod.fst = fairDims
      rw [specPrinciples, List.map_map]
      rfl
    · intro dim hdim
      exact ⟨dimResult dkvs dim, colour_for (dimResult dkvs dim),
        resultPointsOf_spec dkvs dim hdim, resultColorOf_spec dkvs dim hdim⟩
  · have hdims : ∀ dim ∈ fairDims, dimOkB c10Kvs dim = true := by
      norm_num +decide [fairDims, List.forall_mem_cons, dimOkB, itemsVal, dimItems,
        itemOk, processOne, itemPoints, itemWeight, messageField, formatList,
        formatMsg, pyFloat, pyOr, truthy, dictGetD, c10Kvs, mkIndicator]
    refine ⟨?_, _, compute_scores_obj_ok c10Kvs hdims, ?_, ?_, ?_, ?_⟩
    all_goals
      norm_num +decide [resultPointsOf, jlookup, specPrinciples, fairDims,
        dimProcessed, dimResult, dimPS, dimWS, dimItems, itemsVal, foldProc,
        procEntryOf, contribPW, contribW, processOne, processedEntry, itemPoints,
        itemWeight, formatMsg, formatList, messageField, pyFloat, pyOr, truthy,
        dictGetD, dictInsert, round2, colour_for, greenHex, yellowHex, redHex,
        c10Kvs, mkIndicator, round_eq]

/-- C10 witness: the general shape statement applied to the clash
document. -/
theorem fairEva_C10_witness :
    (⟨specPrinciples c10Kvs, specFair c10Kvs,
        colour_for (specFair c10Kvs)⟩ : ScoreResult).principles.map Prod.fst =
      fairDims :=
  (fairEva_C10.1 c10Kvs _
    (compute_scores_obj_ok c10Kvs
      (by norm_num +decide [fairDims, List.forall_mem_cons, dimOkB, itemsVal,
        dimItems, itemOk, processOne, itemPoints, itemWeight, messageField,
        formatList, formatMsg, pyFloat, pyOr, truthy, dictGetD, c10Kvs,
        mkIndicator]))).1
